import Mathlib

/-!
Verification of the `urifilesystem` repository.

The repository's single source file, `src/urifilesystem/urifilesystem.py`,
defines the `URIFilesystem` facade.  The `FileSystemContainer` backend cache
and the URI parser it relies on are referenced from that file but their code
is not under `src/`; following the specification, those two components are
modelled here from the spec's words (each such definition carries a
`Modelled from the spec:` doc comment).  The facade itself
(`_methods_to_expose`, `_setup_interface`, `_method_call`) is embedded
directly from the source.

Strings are embedded as `List Char`; `chars` converts a Lean string literal.
-/

/-- Convert a string literal to the `List Char` representation used throughout. -/
def chars (s : String) : List Char := s.toList

/-- The error taxonomy of the spec (section 7). -/
inductive FSError where
  | MalformedURI
  | UnsupportedScheme
  | BackendConstructionError
deriving DecidableEq, Repr

/-- The semantic triple a URI parses to (spec section 3). -/
structure URI where
  scheme : List Char
  authority : List Char
  path : List Char
deriving DecidableEq, Repr

/-- The scheme delimiter of a URI. -/
def sepURI : List Char := [':', '/', '/']

/-- Split a character list at the first occurrence of the delimiter
`"://"`, returning the part before it and the part after it. -/
def splitURI : List Char → Option (List Char × List Char)
  | [] => none
  | c :: cs =>
    if c = ':' ∧ cs.take 2 = ['/', '/'] then some ([], cs.drop 2)
    else
      match splitURI cs with
      | some (a, b) => some (c :: a, b)
      | none => none

/-- Modelled from the spec: the URI Parser component (spec section 4.1) is not
under `src/`; purely syntactic decomposition of a URI string into
`{scheme, authority, path}`, failing with `MalformedURI` when the string has
no scheme delimiter and hence cannot be decomposed.  The original casing of
the scheme is preserved in the triple; lower-casing happens at lookup time
(spec section 4.1). -/
def parseURI (u : List Char) : Except FSError URI :=
  match splitURI u with
  | none => .error .MalformedURI
  | some (pre, rest) =>
    .ok ⟨pre, rest.takeWhile (· != '/'), rest.dropWhile (· != '/')⟩

/-- Modelled from the spec: re-serialization of a parsed triple
(spec section 3, round-trip invariant). -/
def serializeURI (t : URI) : List Char :=
  t.scheme ++ sepURI ++ t.authority ++ t.path

/-- A successful split decomposes the input around the delimiter. -/
theorem splitURI_eq_append {u a b : List Char}
    (h : splitURI u = some (a, b)) : u = a ++ sepURI ++ b := by
  induction u generalizing a b with
  | nil => simp [splitURI] at h
  | cons c cs ih =>
    simp only [splitURI] at h
    split at h
    · rename_i hc
      simp only [Option.some.injEq, Prod.mk.injEq] at h
      obtain ⟨ha, hb⟩ := h
      obtain ⟨hc1, hc2⟩ := hc
      subst hc1
      subst ha
      subst hb
      show ':' :: cs = [] ++ sepURI ++ cs.drop 2
      simp only [List.nil_append, sepURI, List.cons_append]
      congr 1
      conv_lhs => rw [← List.take_append_drop 2 cs]
      rw [hc2]
      rfl
    · rename_i hc
      cases hs : splitURI cs with
      | none => rw [hs] at h; exact absurd h (by simp)
      | some p =>
        obtain ⟨a', b'⟩ := p
        rw [hs] at h
        simp only [Option.some.injEq, Prod.mk.injEq] at h
        obtain ⟨ha, hb'⟩ := h
        subst hb'
        have := ih hs
        subst this
        rw [← ha]
        simp

/-- The part before the first delimiter occurrence contains no delimiter. -/
theorem splitURI_left_none {u a b : List Char}
    (h : splitURI u = some (a, b)) : splitURI a = none := by
  induction u generalizing a b with
  | nil => simp [splitURI] at h
  | cons c cs ih =>
    simp only [splitURI] at h
    split at h
    · simp only [Option.some.injEq, Prod.mk.injEq] at h
      obtain ⟨ha, _⟩ := h
      subst ha
      rfl
    · rename_i hc
      cases hs : splitURI cs with
      | none => rw [hs] at h; exact absurd h (by simp)
      | some p =>
        obtain ⟨a', b'⟩ := p
        rw [hs] at h
        simp only [Option.some.injEq, Prod.mk.injEq] at h
        obtain ⟨ha, hb'⟩ := h
        subst ha
        have hcs : cs = a' ++ sepURI ++ b' := splitURI_eq_append hs
        simp only [splitURI]
        rw [if_neg, ih hs]
        intro hcontra
        obtain ⟨hc1, hc2⟩ := hcontra
        apply hc
        refine ⟨hc1, ?_⟩
        rcases a' with _ | ⟨d, a''⟩
        · simp at hc2
        · rcases a'' with _ | ⟨e, a'''⟩
          · simp at hc2
          · simp only [List.take] at hc2
            obtain ⟨hd, he⟩ : d = '/' ∧ e = '/' := by
              simpa using hc2
            subst hd; subst he
            rw [hcs]
            rfl

/-- Splitting a list built around the delimiter, whose first part is
delimiter-free, recovers exactly the two parts. -/
theorem splitURI_append_sep {s : List Char} (r : List Char)
    (h : splitURI s = none) : splitURI (s ++ sepURI ++ r) = some (s, r) := by
  induction s with
  | nil => rfl
  | cons c cs ih =>
    simp only [splitURI] at h
    split at h
    · exact absurd h (by simp)
    · rename_i hc
      have hcs : splitURI cs = none := by
        cases hs : splitURI cs with
        | none => rfl
        | some p => obtain ⟨a', b'⟩ := p; rw [hs] at h; exact absurd h (by simp)
      have hrec := ih hcs
      show splitURI (c :: (cs ++ sepURI ++ r)) = some (c :: cs, r)
      simp only [splitURI]
      rw [if_neg, hrec]
      intro hcontra
      obtain ⟨hc1, hc2⟩ := hcontra
      apply hc
      refine ⟨hc1, ?_⟩
      rcases cs with _ | ⟨d, cs'⟩
      · simp [sepURI] at hc2
      · rcases cs' with _ | ⟨e, cs''⟩
        · simp [sepURI] at hc2
        · simp only [List.cons_append, List.take] at hc2 ⊢
          simpa using hc2

/-- Any list containing the delimiter splits successfully. -/
theorem splitURI_isSome (s r : List Char) :
    (splitURI (s ++ sepURI ++ r)).isSome = true := by
  induction s with
  | nil => rfl
  | cons c cs ih =>
    show (splitURI (c :: (cs ++ sepURI ++ r))).isSome = true
    simp only [splitURI]
    split
    · rfl
    · cases hs : splitURI (cs ++ sepURI ++ r) with
      | none => rw [hs] at ih; simp at ih
      | some p => obtain ⟨a, b⟩ := p; simp

/-- Claim C5: for every URI accepted by the parser, serializing the parsed
triple `{scheme, authority, path}` yields a URI whose parse is the same
triple (round-trip stability of parse and re-serialization). -/
theorem parse_serialize_roundtrip (u : List Char) (t : URI)
    (h : parseURI u = .ok t) : parseURI (serializeURI t) = .ok t := by
  unfold parseURI at h
  cases hsp : splitURI u with
  | none => rw [hsp] at h; exact absurd h (by simp)
  | some p =>
    obtain ⟨pre, rest⟩ := p
    rw [hsp] at h
    simp only [Except.ok.injEq] at h
    have hser : serializeURI t = pre ++ sepURI ++ rest := by
      rw [← h]
      simp only [serializeURI]
      rw [List.append_assoc (pre ++ sepURI), List.takeWhile_append_dropWhile]
    rw [hser]
    unfold parseURI
    rw [splitURI_append_sep rest (splitURI_left_none hsp)]
    rw [← h]

/-- Claim C5 witness at a concrete URI. -/
theorem parse_serialize_roundtrip_witness :
    parseURI (serializeURI ⟨chars "s3", chars "my-bucket", chars "/dir/f.txt"⟩) =
      .ok ⟨chars "s3", chars "my-bucket", chars "/dir/f.txt"⟩ :=
  parse_serialize_roundtrip (chars "s3://my-bucket/dir/f.txt")
    ⟨chars "s3", chars "my-bucket", chars "/dir/f.txt"⟩ rfl

/-- An opaque backend-construction parameter bundle (spec section 3: a mapping
from string keys to values, opaque to the core). -/
def Params := List (List Char × List Char)
deriving DecidableEq, Repr

/-- The credential table: a mapping from keys of the form
`"{scheme}://{authority}"` to parameter bundles (spec section 3). -/
def CredTable := List (List Char × Params)
deriving DecidableEq, Repr

/-- First-match association-list lookup. -/
def assocFind {κ α : Type} [DecidableEq κ] (k : κ) : List (κ × α) → Option α
  | [] => none
  | (k', v) :: t => if k' = k then some v else assocFind k t

/-- Lower-case a single ASCII character (scheme normalization for lookup,
spec section 4.1). -/
def lowerChar (c : Char) : Char :=
  if 'A' ≤ c ∧ c ≤ 'Z' then Char.ofNat (c.toNat + 32) else c

/-- Lower-case a character list. -/
def lowerStr (s : List Char) : List Char := s.map lowerChar

/-- The credential-table key `"{scheme}://{authority}"` (spec section 3);
with an empty authority this is the scheme-default key `"{scheme}://"`. -/
def credKey (scheme authority : List Char) : List Char :=
  scheme ++ sepURI ++ authority

/-- Modelled from the spec: Credential Registry lookup (spec section 4.2),
whose code is not under `src/`.  Specificity order: exact
`(scheme, authority)` entry first, then the scheme-default `(scheme, "")`
entry, then none. -/
def credLookup (table : CredTable) (scheme authority : List Char) : Option Params :=
  match assocFind (credKey scheme authority) table with
  | some p => some p
  | none => assocFind (credKey scheme []) table

/-- A backend instance; `bid` is the instance identity (two resolutions
returning the same `bid` model reference equality of instances). -/
structure Backend where
  bid : Nat
  scheme : List Char
  authority : List Char
  creds : Option Params
deriving DecidableEq, Repr

/-- The backend-instance cache key `(scheme, authority, credential-identity)`
(spec section 3). -/
def CacheKey := List Char × List Char × Option Params
deriving DecidableEq, Repr

/-- The state owned by the backend cache: the immutable credential table, the
set of schemes with a registered backend factory variant, the instance cache
and a counter supplying fresh instance identities. -/
structure ContainerState where
  table : CredTable
  supported : List (List Char)
  cache : List (CacheKey × Backend)
  nextId : Nat
deriving DecidableEq, Repr

/-- Whether backend construction succeeds for a given scheme and credential
bundle on this particular call (spec section 4.3: construction may fail with
`BackendConstructionError`; the outcome may differ between calls, e.g. a
transient endpoint failure). -/
def FactoryBehavior := List Char → Option Params → Bool

/-- The cache key a parsed URI resolves to. -/
def keyOf (table : CredTable) (t : URI) : CacheKey :=
  (lowerStr t.scheme, t.authority, credLookup table (lowerStr t.scheme) t.authority)

/-- The backend instance a cache miss constructs. -/
def freshBackend (st : ContainerState) (t : URI) : Backend :=
  ⟨st.nextId, lowerStr t.scheme, t.authority,
   credLookup st.table (lowerStr t.scheme) t.authority⟩

/-- Modelled from the spec: `FileSystemContainer.get` (Backend Cache, spec
section 4.4), referenced from `src/urifilesystem/urifilesystem.py` but not
defined under `src/`.  Parse the URI, look up credentials with specificity
fallback, compute the cache key `(scheme, authority, credential-identity)`;
on a hit return the cached instance unchanged, on a miss construct via the
factory (failing with `UnsupportedScheme` when the scheme has no registered
variant and with `BackendConstructionError` when construction fails, caching
nothing in either case) and insert the new instance.  The state is returned
alongside the result so that cache effects are explicit. -/
def containerGet (fac : FactoryBehavior) (st : ContainerState) (uri : List Char) :
    Except FSError Backend × ContainerState :=
  match parseURI uri with
  | .error e => (.error e, st)
  | .ok t =>
    match assocFind (keyOf st.table t) st.cache with
    | some b => (.ok b, st)
    | none =>
      if lowerStr t.scheme ∈ st.supported then
        if fac (lowerStr t.scheme) (credLookup st.table (lowerStr t.scheme) t.authority) then
          (.ok (freshBackend st t),
           ⟨st.table, st.supported,
            (keyOf st.table t, freshBackend st t) :: st.cache, st.nextId + 1⟩)
        else (.error .BackendConstructionError, st)
      else (.error .UnsupportedScheme, st)

/-- Modelled from the spec: `FileSystemContainer`'s path-extraction helper
`strip(uri) -> local-path` (spec section 4.4). -/
def stripURI (u : List Char) : Except FSError (List Char) :=
  (parseURI u).map URI.path

/-- The credentials carried by the backend a resolution returns (if it
returns one). -/
def resolvedCreds (fac : FactoryBehavior) (st : ContainerState) (uri : List Char) :
    Option (Option Params) :=
  ((containerGet fac st uri).1.toOption).map Backend.creds

/-- Embedded from the source: `URIFilesystem._methods_to_expose`, the list of
operation names attached as URI-routed wrappers at construction time. -/
def methodsToExpose : List String :=
  ["mkdir", "mkdirs", "rmdir", "ls", "walk", "find", "du", "glob", "exists",
   "info", "checksum", "size", "sizes", "isdir", "isfile", "pipe_file",
   "pipe", "cat", "head", "tail", "copy", "rm", "open", "touch"]

/-- The invocation a facade call performs on the resolved backend: which
backend instance, which method name, and exactly which arguments are passed
to it. -/
structure BackendInvocation where
  backend : Backend
  method : String
  args : List (List Char)
deriving DecidableEq, Repr

/-- Embedded from the source: `URIFilesystem._method_call(method, path,
*args, **kwargs)` evaluates `getattr(self._filesystems.get(path),
method)(*args, **kwargs)` — it resolves the backend from `path` and then
invokes the named backend method with the remaining arguments only (the
resolved local path is not among them). -/
def methodCall (fac : FactoryBehavior) (st : ContainerState) (method : String)
    (path : List Char) (args : List (List Char)) :
    Except FSError BackendInvocation × ContainerState :=
  match containerGet fac st path with
  | (.ok b, st2) => (.ok ⟨b, method, args⟩, st2)
  | (.error e, st2) => (.error e, st2)

/-- Embedded from the source: the value `_method_call` returns to the caller
is the backend method's raw return value, unchanged; `run` models the
backend's behaviour on the invocation the facade performs. -/
def methodResult (run : BackendInvocation → List (List Char))
    (fac : FactoryBehavior) (st : ContainerState) (method : String)
    (path : List Char) (args : List (List Char)) :
    Except FSError (List (List Char)) × ContainerState :=
  match methodCall fac st method path args with
  | (.ok inv, st2) => (.ok (run inv), st2)
  | (.error e, st2) => (.error e, st2)

/-- Embedded from the source: `URIFilesystem._setup_interface` attaches a
URI-routed wrapper (a partial application of `_method_call`) for exactly the
names in `_methods_to_expose`; any other name has no routed wrapper. -/
def facadeCall (fac : FactoryBehavior) (st : ContainerState) (name : String)
    (path : List Char) (args : List (List Char)) :
    Option (Except FSError BackendInvocation × ContainerState) :=
  if name ∈ methodsToExpose then some (methodCall fac st name path args) else none

/-- A factory behaviour whose constructions always succeed. -/
def facAll : FactoryBehavior := fun _ _ => true

/-- A factory behaviour whose constructions always fail. -/
def facNone : FactoryBehavior := fun _ _ => false

/-- A facade state with no credentials, an `s3` backend variant registered,
and an empty instance cache. -/
def stS3 : ContainerState := ⟨[], [chars "s3"], [], 0⟩

/-- A backend whose list-directory returns the bare relative path
`"dir/file.txt"`, as the spec's end-to-end scenario posits. -/
def lsBare : BackendInvocation → List (List Char) :=
  fun _ => [chars "dir/file.txt"]

/-- Claim C1: the facade is claimed to rewrite every backend-returned path
into a fully-qualified URI.  The source's `_method_call` returns the
backend's raw result unchanged, so a list-directory on
`"s3://my-bucket/dir"` whose backend returns the bare `"dir/file.txt"`
reaches the caller bare, not as `"s3://my-bucket/dir/file.txt"` — contrary
to the claim and to the class's own docstring (criterion 1). -/
theorem ls_result_not_normalized :
    (methodResult lsBare facAll stS3 "ls" (chars "s3://my-bucket/dir") []).1 =
      .ok [chars "dir/file.txt"] ∧
    chars "dir/file.txt" ≠ chars "s3://my-bucket/dir/file.txt" :=
  ⟨rfl, by decide⟩

/-- Claim C2: the facade is claimed to invoke the backend's operation with
the local (scheme-stripped) path followed by the remaining arguments.  The
source's `_method_call` evaluates
`getattr(self._filesystems.get(path), method)(*args, **kwargs)`: the path
is consumed by backend resolution and never passed to the backend method.
At `ls("s3://my-bucket/dir")` the backend's `ls` is invoked with the empty
argument list although the local path is the nonempty `"/dir"`. -/
theorem method_call_drops_local_path :
    (methodCall facAll stS3 "ls" (chars "s3://my-bucket/dir") []).1 =
      .ok ⟨⟨0, chars "s3", chars "my-bucket", none⟩, "ls", []⟩ ∧
    stripURI (chars "s3://my-bucket/dir") = .ok (chars "/dir") ∧
    ([] : List (List Char)) ≠ [chars "/dir"] :=
  ⟨rfl, rfl, by decide⟩

/-- Claim C9: after construction, exactly the 24 operation names listed in
`_methods_to_expose` have URI-routed wrappers attached; any other name has
none. -/
theorem exposed_methods_exact (fac : FactoryBehavior) (st : ContainerState)
    (path : List Char) (args : List (List Char)) :
    (∀ name : String, (facadeCall fac st name path args).isSome = true ↔
       name ∈ (["mkdir", "mkdirs", "rmdir", "ls", "walk", "find", "du",
                "glob", "exists", "info", "checksum", "size", "sizes",
                "isdir", "isfile", "pipe_file", "pipe", "cat", "head",
                "tail", "copy", "rm", "open", "touch"] : List String)) ∧
    methodsToExpose.length = 24 := by
  refine ⟨fun name => ?_, rfl⟩
  show (facadeCall fac st name path args).isSome = true ↔ name ∈ methodsToExpose
  unfold facadeCall
  split
  · rename_i hmem
    simpa using hmem
  · rename_i hmem
    simpa using hmem

/-- Claim C9 witness: `"ls"` is routed and `"made_up_op"` is not. -/
theorem exposed_methods_exact_witness :
    (facadeCall facAll stS3 "ls" (chars "s3://b/x") []).isSome = true ∧
    (facadeCall facAll stS3 "made_up_op" (chars "s3://b/x") []).isSome = false := by
  constructor
  · exact ((exposed_methods_exact facAll stS3 (chars "s3://b/x") []).1 "ls").mpr
      (by decide)
  · have h := ((exposed_methods_exact facAll stS3 (chars "s3://b/x") []).1
      "made_up_op")
    have : ¬ ("made_up_op" ∈ (["mkdir", "mkdirs", "rmdir", "ls", "walk",
      "find", "du", "glob", "exists", "info", "checksum", "size", "sizes",
      "isdir", "isfile", "pipe_file", "pipe", "cat", "head", "tail", "copy",
      "rm", "open", "touch"] : List String)) := by decide
    cases hv : (facadeCall facAll stS3 "made_up_op" (chars "s3://b/x") []).isSome
    · rfl
    · exact absurd (h.mp hv) this

/-- Claim C10: for a fixed facade state, the backend instance a facade call
resolves is a function of the path (URI) argument alone — the operation name
and the trailing arguments play no part in the choice. -/
theorem backend_depends_only_on_path (fac : FactoryBehavior)
    (st : ContainerState) (m1 m2 : String) (path : List Char)
    (a1 a2 : List (List Char)) :
    (methodCall fac st m1 path a1).1.map BackendInvocation.backend =
      (methodCall fac st m2 path a2).1.map BackendInvocation.backend := by
  unfold methodCall
  rcases containerGet fac st path with ⟨r, st2⟩
  cases r <;> rfl

/-- A state holding one cached `s3` backend instance. -/
def stCachedS3 : ContainerState :=
  ⟨[], [chars "s3"],
   [((chars "s3", chars "bkt", none), ⟨0, chars "s3", chars "bkt", none⟩)], 1⟩

/-- Claim C3: two URIs with identical scheme and authority resolve through
the same backend cache to the same backend instance, regardless of differing
paths: after `u1` resolves to instance `b`, resolving `u2` from the
resulting state returns the very same instance. -/
theorem resolution_determinism (fac fac2 : FactoryBehavior)
    (st st1 : ContainerState) (u1 u2 : List Char) (t1 t2 : URI) (b : Backend)
    (h1 : parseURI u1 = .ok t1) (h2 : parseURI u2 = .ok t2)
    (hs : t1.scheme = t2.scheme) (ha : t1.authority = t2.authority)
    (hget : containerGet fac st u1 = (.ok b, st1)) :
    (containerGet fac2 st1 u2).1 = .ok b := by
  have hkey : ∀ tab, keyOf tab t2 = keyOf tab t1 := by
    intro tab; simp [keyOf, hs, ha]
  simp only [containerGet, h1] at hget
  cases hc : assocFind (keyOf st.table t1) st.cache with
  | some b2 =>
    rw [hc] at hget
    simp only [Prod.mk.injEq, Except.ok.injEq] at hget
    obtain ⟨hb, hst⟩ := hget
    subst hb; subst hst
    simp only [containerGet, h2, hkey, hc]
  | none =>
    rw [hc] at hget
    split_ifs at hget with hsup hfac
    · simp only [Prod.mk.injEq, Except.ok.injEq] at hget
      obtain ⟨hb, hst⟩ := hget
      subst hb; subst hst
      simp only [containerGet, h2]
      rw [hkey]
      simp [assocFind]
    · simp at hget
    · simp at hget

/-- Claim C3 witness: after resolving `"s3://bkt/a"` produced instance 0,
resolving `"s3://bkt/b"` returns the same instance 0. -/
theorem resolution_determinism_witness :
    (containerGet facAll stCachedS3 (chars "s3://bkt/b")).1 =
      .ok ⟨0, chars "s3", chars "bkt", none⟩ :=
  resolution_determinism facAll facAll stS3 stCachedS3
    (chars "s3://bkt/a") (chars "s3://bkt/b")
    ⟨chars "s3", chars "bkt", chars "/a"⟩ ⟨chars "s3", chars "bkt", chars "/b"⟩
    ⟨0, chars "s3", chars "bkt", none⟩ rfl rfl rfl rfl rfl

/-- Claim C4: credential lookup picks the most specific available entry —
an exact `"{scheme}://{authority}"` entry wins, otherwise the scheme-default
`"{scheme}://"` entry, otherwise the backend is constructed with no
credentials; the backend a resolution constructs carries exactly the
selected bundle. -/
theorem credential_specificity (fac : FactoryBehavior) (st : ContainerState)
    (u : List Char) (t : URI)
    (hp : parseURI u = .ok t) (hempty : st.cache = [])
    (hsup : lowerStr t.scheme ∈ st.supported)
    (hfac : ∀ p, fac (lowerStr t.scheme) p = true) :
    (∀ p, assocFind (credKey (lowerStr t.scheme) t.authority) st.table = some p →
       resolvedCreds fac st u = some (some p)) ∧
    (assocFind (credKey (lowerStr t.scheme) t.authority) st.table = none →
      (∀ p, assocFind (credKey (lowerStr t.scheme) []) st.table = some p →
         resolvedCreds fac st u = some (some p)) ∧
      (assocFind (credKey (lowerStr t.scheme) []) st.table = none →
         resolvedCreds fac st u = some none)) := by
  have hbase : resolvedCreds fac st u =
      some (credLookup st.table (lowerStr t.scheme) t.authority) := by
    unfold resolvedCreds
    simp only [containerGet, hp, hempty]
    rw [show assocFind (keyOf st.table t) ([] : List (CacheKey × Backend)) =
      none from rfl]
    rw [if_pos hsup, if_pos (hfac _)]
    rfl
  refine ⟨fun p hpA => ?_, fun hA => ⟨fun p hpS => ?_, fun hS => ?_⟩⟩
  · rw [hbase]
    unfold credLookup
    rw [hpA]
  · rw [hbase]
    unfold credLookup
    rw [hA, hpS]
  · rw [hbase]
    unfold credLookup
    rw [hA, hS]

/-- A bucket-specific parameter bundle. -/
def pBucketA : Params := [(chars "key", chars "AKIA-bucket-a")]

/-- A scheme-default parameter bundle. -/
def pSchemeS3 : Params := [(chars "key", chars "DEFAULT-s3")]

/-- A state whose credential table has both an `"s3://bucket-a"` entry and a
scheme-default `"s3://"` entry. -/
def stBoth : ContainerState :=
  ⟨[(chars "s3://bucket-a", pBucketA), (chars "s3://", pSchemeS3)],
   [chars "s3"], [], 0⟩

/-- Claim C4 witness: with both entries present, `"s3://bucket-a/key"` uses
the bucket-specific entry, `"s3://bucket-b/key"` the scheme default, and
with no entry at all the backend carries no credentials. -/
theorem credential_specificity_witness :
    resolvedCreds facAll stBoth (chars "s3://bucket-a/key") =
      some (some pBucketA) ∧
    resolvedCreds facAll stBoth (chars "s3://bucket-b/key") =
      some (some pSchemeS3) ∧
    resolvedCreds facAll stS3 (chars "s3://bucket-a/key") = some none :=
  ⟨(credential_specificity facAll stBoth (chars "s3://bucket-a/key")
      ⟨chars "s3", chars "bucket-a", chars "/key"⟩ rfl rfl (by decide)
      (fun _ => rfl)).1 pBucketA rfl,
   ((credential_specificity facAll stBoth (chars "s3://bucket-b/key")
      ⟨chars "s3", chars "bucket-b", chars "/key"⟩ rfl rfl (by decide)
      (fun _ => rfl)).2 rfl).1 pSchemeS3 rfl,
   ((credential_specificity facAll stS3 (chars "s3://bucket-a/key")
      ⟨chars "s3", chars "bucket-a", chars "/key"⟩ rfl rfl (by decide)
      (fun _ => rfl)).2 rfl).2 rfl⟩

/-- Claim C6: when backend construction fails on a cache miss, the error is
propagated and the whole state — in particular the cache — is left
unchanged, so a later resolution of the same URI retries construction (and
succeeds when the factory now succeeds). -/
theorem construction_failure_not_cached (fac fac2 : FactoryBehavior)
    (st : ContainerState) (u : List Char) (t : URI)
    (hp : parseURI u = .ok t)
    (hmiss : assocFind (keyOf st.table t) st.cache = none)
    (hsup : lowerStr t.scheme ∈ st.supported)
    (hfail : fac (lowerStr t.scheme)
      (credLookup st.table (lowerStr t.scheme) t.authority) = false)
    (hretry : fac2 (lowerStr t.scheme)
      (credLookup st.table (lowerStr t.scheme) t.authority) = true) :
    containerGet fac st u = (.error .BackendConstructionError, st) ∧
    (containerGet fac2 st u).1 = .ok (freshBackend st t) := by
  constructor
  · simp only [containerGet, hp, hmiss]
    rw [if_pos hsup, if_neg (by simp [hfail])]
  · simp only [containerGet, hp, hmiss]
    rw [if_pos hsup, if_pos hretry]

/-- Claim C6 witness: a failing construction on `"s3://bkt/a"` surfaces
`BackendConstructionError` with the state untouched, and the retry from that
same state constructs instance 0. -/
theorem construction_failure_not_cached_witness :
    containerGet facNone stS3 (chars "s3://bkt/a") =
      (.error .BackendConstructionError, stS3) ∧
    (containerGet facAll stS3 (chars "s3://bkt/a")).1 =
      .ok (freshBackend stS3 ⟨chars "s3", chars "bkt", chars "/a"⟩) :=
  construction_failure_not_cached facNone facAll stS3 (chars "s3://bkt/a")
    ⟨chars "s3", chars "bkt", chars "/a"⟩ rfl rfl (by decide) rfl rfl

/-- Claim C7: resolving a URI whose scheme has no registered factory fails
with `UnsupportedScheme`, the state is unchanged, and every previously
cached backend instance remains retrievable unchanged afterwards. -/
theorem unsupported_scheme_cache_intact (fac : FactoryBehavior)
    (st : ContainerState) (u : List Char) (t : URI)
    (hp : parseURI u = .ok t)
    (hmiss : assocFind (keyOf st.table t) st.cache = none)
    (hunsup : lowerStr t.scheme ∉ st.supported) :
    containerGet fac st u = (.error .UnsupportedScheme, st) ∧
    ∀ k b, assocFind k st.cache = some b →
      assocFind k (containerGet fac st u).2.cache = some b := by
  have h1 : containerGet fac st u = (.error .UnsupportedScheme, st) := by
    simp only [containerGet, hp, hmiss]
    rw [if_neg hunsup]
  exact ⟨h1, fun k b hb => by rw [h1]; exact hb⟩

/-- Claim C7 witness: with an `s3` instance cached and no `ftp` factory,
resolving `"ftp://host/path"` fails with `UnsupportedScheme` and the cached
`s3` instance is still retrievable afterwards. -/
theorem unsupported_scheme_cache_intact_witness :
    containerGet facAll stCachedS3 (chars "ftp://host/path") =
      (.error .UnsupportedScheme, stCachedS3) ∧
    assocFind ((chars "s3", chars "bkt", none) : CacheKey)
      (containerGet facAll stCachedS3 (chars "ftp://host/path")).2.cache =
      some ⟨0, chars "s3", chars "bkt", none⟩ :=
  ⟨(unsupported_scheme_cache_intact facAll stCachedS3 (chars "ftp://host/path")
      ⟨chars "ftp", chars "host", chars "/path"⟩ rfl rfl (by decide)).1,
   (unsupported_scheme_cache_intact facAll stCachedS3 (chars "ftp://host/path")
      ⟨chars "ftp", chars "host", chars "/path"⟩ rfl rfl (by decide)).2
     ((chars "s3", chars "bkt", none) : CacheKey)
     ⟨0, chars "s3", chars "bkt", none⟩ rfl⟩

/-- Claim C8: the parser fails with `MalformedURI` exactly when the input
cannot be decomposed around a scheme delimiter into scheme, authority and
path (the empty string being one such input), and the failure is surfaced
unchanged to the caller of the triggering facade operation. -/
theorem malformed_uri_surfaced (u : List Char) (fac : FactoryBehavior)
    (st : ContainerState) (method : String) (args : List (List Char)) :
    (parseURI u = .error .MalformedURI ↔ ¬ ∃ s r, u = s ++ sepURI ++ r) ∧
    (parseURI u = .error .MalformedURI →
      methodCall fac st method u args = (.error .MalformedURI, st)) := by
  constructor
  · constructor
    · rintro herr ⟨s, r, rfl⟩
      have hsome := splitURI_isSome s r
      unfold parseURI at herr
      cases hsp : splitURI (s ++ sepURI ++ r) with
      | none => rw [hsp] at hsome; simp at hsome
      | some p => obtain ⟨a, b⟩ := p; rw [hsp] at herr; simp at herr
    · intro hno
      unfold parseURI
      cases hsp : splitURI u with
      | none => rfl
      | some p =>
        obtain ⟨a, b⟩ := p
        exact absurd ⟨a, b, splitURI_eq_append hsp⟩ hno
  · intro herr
    simp only [methodCall, containerGet, herr]

/-- Claim C8 witness: the empty string cannot be decomposed, and a facade
call on it surfaces `MalformedURI` immediately with the state untouched. -/
theorem malformed_uri_surfaced_witness :
    methodCall facAll stS3 "ls" (chars "") [] = (.error .MalformedURI, stS3) :=
  (malformed_uri_surfaced (chars "") facAll stS3 "ls" []).2 rfl
